import Mathlib

/-!
Verification of the gogw API gateway core: the route table / dispatcher,
the stage-chain execution model, the circuit-breaker-wrapped transport and
the JWT authentication layer, shallowly embedded from the Go sources.
-/

namespace Gogw

/-! ## HTTP error values (package httperr) -/

/-- Embeds `httperr.Error`: an HTTP status code paired with a message. -/
structure HttpError where
  code : Nat
  message : String
deriving DecidableEq, Repr

/-- Embeds `httperr.UnAuthorized`. -/
def UnAuthorized : HttpError := ⟨401, "unauthorized"⟩

/-- Embeds `httperr.Forbidden`. -/
def Forbidden : HttpError := ⟨403, "forbidden"⟩

/-- Embeds `httperr.NotFound`. -/
def NotFound : HttpError := ⟨404, "not found"⟩

/-! ## Token splitting and JWT authentication (package auth)

Go's `strings.SplitN(s, " ", 2)` splits at the first space only.  We embed it
directly on the character list so that its case analysis is transparent. -/

/-- Splits a character list at the first occurrence of `sep`: returns the
characters before it and, when `sep` occurs, the characters after it.
Mirrors the observable behaviour of `strings.SplitN(s, sep, 2)`. -/
def splitN2Chars (sep : Char) : List Char → List Char × Option (List Char)
  | [] => ([], none)
  | c :: cs =>
    if c = sep then ([], some cs)
    else
      let r := splitN2Chars sep cs
      (c :: r.1, r.2)

/-- Embeds `strings.SplitN(token, " ", 2)`: a list of one part (no space in
the input) or exactly two parts (split at the first space). -/
def splitN2 (s : String) : List String :=
  match splitN2Chars ' ' s.data with
  | (pre, none) => [String.mk pre]
  | (pre, some post) => [String.mk pre, String.mk post]

/-- ASCII lowering of a Unicode code point: uppercase A–Z shift by 32, all
other code points are unchanged. -/
def asciiLowerNat (n : Nat) : Nat := if 65 ≤ n ∧ n ≤ 90 then n + 32 else n

/-- The code points of a string after ASCII lowering.  Go's
`strings.ToLower` is full Unicode, but no code point outside A–Z lowers to a
letter of "bearer", so comparing these lowered code-point lists agrees with
Go's `strings.ToLower(s) == "bearer"` on every input. -/
def toLowerCodes (s : String) : List Nat := s.data.map (fun c => asciiLowerNat c.toNat)

/-- Embeds `auth.splitToken`: on a two-part credential whose first part
lowercases to "bearer" the token part is returned; on any other two-part
credential the error "not a bearer token" is returned; a credential without
a space is returned unchanged. -/
def splitToken (token : String) : Except String String :=
  match splitN2 token with
  | [scheme, rest] =>
    if toLowerCodes scheme = toLowerCodes "bearer" then Except.ok rest
    else Except.error "not a bearer token"
  | _ => Except.ok token

/-- Embeds `auth.AuthResult`: a success flag plus an optional artifact
(the decoded token).  The artifact type is a parameter since the Go code
stores an `interface` value. -/
structure AuthResult (Token : Type) where
  success : Bool
  artifact : Option Token
deriving DecidableEq, Repr

/-- Embeds `JWTAuthenticator.Authenticate`.  The `jwt.Parse` call of the
external JWT library is a parameter `jwtParse`; the Go branch for a nil
parsed token with a nil error cannot arise here because `jwtParse` returns
either a token or an error.  The second component models the returned
`error` value (`some msg` embeds a non-nil `AuthError` with that message). -/
def JWTAuthenticate (jwtParse : String → Except String Token) (creds : String) :
    AuthResult Token × Option String :=
  match splitToken creds with
  | Except.error e => (⟨false, none⟩, some e)
  | Except.ok token =>
    match jwtParse token with
    | Except.error e => (⟨false, none⟩, some e)
    | Except.ok parsed => (⟨true, some parsed⟩, none)

/-! Basic facts about `splitN2Chars`. -/

theorem splitN2Chars_no_sep (sep : Char) (l : List Char) (h : sep ∉ l) :
    splitN2Chars sep l = (l, none) := by
  induction l with
  | nil => rfl
  | cons c cs ih =>
    have hc : c ≠ sep := fun hcs => h (hcs ▸ List.mem_cons_self c cs)
    have hcs : sep ∉ cs := fun hm => h (List.mem_cons_of_mem c hm)
    simp [splitN2Chars, hc, ih hcs]

theorem splitN2_no_space (s : String) (h : ' ' ∉ s.data) : splitN2 s = [s] := by
  simp [splitN2, splitN2Chars_no_sep ' ' s.data h]

/-! ## HTTP request and response-writer model

A request carries the URL path and the value the handler reads from
`r.Header["Authorization"]` (Go takes the first element of the value slice;
`none` embeds an absent header).  A `ResponseWriter` accumulates a status
(first `WriteHeader` wins, later calls are superfluous and ignored by
`net/http`) and a body. -/

structure Request where
  path : String
  authorization : Option String
deriving DecidableEq, Repr

structure Response where
  status : Option Nat
  body : String
deriving DecidableEq, Repr

/-- The zero response writer handed to a handler before any write. -/
def emptyResponse : Response := ⟨none, ""⟩

/-- Embeds `w.WriteHeader(code)`. -/
def writeHeader (code : Nat) (w : Response) : Response :=
  match w.status with
  | some _ => w
  | none => ⟨some code, w.body⟩

/-- Embeds `w.Write([]byte(s))`. -/
def write (s : String) (w : Response) : Response := ⟨w.status, w.body ++ s⟩

/-! ## Configuration endpoints (package config) -/

/-- Embeds `config.Endpoint`. -/
structure Endpoint where
  name : String
  key : String
  url : String
  authenticate : Bool
  sharedTransport : String
deriving DecidableEq, Repr

/-- Embeds a parsed `url.URL` opaquely; the go `url.Parse` call itself is a
parameter of the route-compilation model. -/
structure ParsedURL where
  raw : String
deriving DecidableEq, Repr

/-! ## The JWT auth handler (auth.newJWTAuthHandler) -/

/-- Embeds the closure built by `auth.newJWTAuthHandler`: absent Authorization
header fails with the carried 401 error; a failed `Authenticate` fails with a
nil error (which the auth stage turns into 403 "forbidden"); success
continues. -/
def jwtAuthHandler (jwtParse : String → Except String Token)
    (authorization : Option String) : Bool × Option HttpError :=
  match authorization with
  | none => (false, some UnAuthorized)
  | some bearerToken =>
    let r := JWTAuthenticate jwtParse bearerToken
    if !r.1.success || r.2.isSome then (false, none)
    else (true, none)

/-! ## Stage chains (gateway dispatcher)

A compiled stage is either the authentication stage or the terminal proxy
stage; the proxy stage records the transport handle it routes through (an
identifier freshly allocated per created `CbTransport`) and the parsed
backend URL.  Go's `StageHandler` linked list is embedded as the list of
stages from that node onward. -/

inductive Stage where
  | auth : Stage
  | proxy : Nat → ParsedURL → Stage
deriving DecidableEq, Repr

/-- Execution context for stages: the JWT verifier behind the auth handler
and the effect of `routeProxy.ServeHTTP` on the response writer, indexed by
the transport handle and backend URL the reverse proxy was built with. -/
structure Ctx (Token : Type) where
  jwtParse : String → Except String Token
  proxyEffect : Nat → ParsedURL → Request → Response → Response

/-- Embeds the `ExecHandler` closure of the authenticating stage built by
`Dispatcher.newAuthenticatingProxyStageHandler`: on auth failure it writes the
carried code (when non-zero) and message (when non-empty), or 403 "forbidden"
when no error is carried, and halts; on success it continues. -/
def authStageExec (authHandler : Option String → Bool × Option HttpError)
    (authorization : Option String) (w : Response) : Bool × Response :=
  match authHandler authorization with
  | (true, _) => (true, w)
  | (false, some e) =>
    let w1 := if e.code ≠ 0 then writeHeader e.code w else w
    let w2 := if e.message ≠ "" then write e.message w1 else w1
    (false, w2)
  | (false, none) => (false, write "forbidden" (writeHeader 403 w))

/-- Runs one stage's `ExecHandler`: the auth stage consults the auth handler;
the proxy stage serves the reverse proxy and returns false. -/
def execStage (ctx : Ctx Token) (req : Request) : Stage → Response → Bool × Response
  | Stage.auth, w => authStageExec (jwtAuthHandler ctx.jwtParse) req.authorization w
  | Stage.proxy h u, w => (false, ctx.proxyEffect h u req w)

/-! ## Route compilation (Dispatcher.configureRoutes and the builder) -/

/-- First-match association-list lookup, embedding a Go map read. -/
def alookup : List (String × α) → String → Option α
  | [], _ => none
  | (k, v) :: rest, key => if k = key then some v else alookup rest key

/-- Mutable compilation state of the dispatcher: the `transports` map (name
to transport-handle identifier) and a counter allocating fresh handles, so
that handle identity is observable. -/
structure BuildSt where
  transports : List (String × Nat)
  nextHandle : Nat
deriving DecidableEq, Repr

/-- The transport name an endpoint resolves to in
`Dispatcher.newProxyStageHandler`: its `sharedTransport` when declared,
otherwise its own name. -/
def effTransName (ep : Endpoint) : String :=
  if ep.sharedTransport ≠ "" then ep.sharedTransport else ep.name

/-- Embeds `Dispatcher.newProxyStageHandler`: parse the endpoint URL (failing
compilation on error), resolve the transport name, reuse the transport
registered under that name or register a fresh one, and produce the
single-stage proxy chain using that transport handle. -/
def newProxyStageHandler (urlParse : String → Option ParsedURL) (st : BuildSt)
    (ep : Endpoint) : Except String (List Stage × BuildSt) :=
  match urlParse ep.url with
  | none => Except.error ("failed to parse url: " ++ ep.url ++ ", for endpoint: " ++ ep.name)
  | some u =>
    match alookup st.transports (effTransName ep) with
    | some h => Except.ok ([Stage.proxy h u], st)
    | none =>
      Except.ok ([Stage.proxy st.nextHandle u],
        ⟨(effTransName ep, st.nextHandle) :: st.transports, st.nextHandle + 1⟩)

/-- Embeds `Dispatcher.newAuthenticatingProxyStageHandler`: requires an auth
handler to be configured and prepends the auth stage to the proxy chain. -/
def newAuthenticatingProxyStageHandler (urlParse : String → Option ParsedURL)
    (authSet : Bool) (st : BuildSt) (ep : Endpoint) :
    Except String (List Stage × BuildSt) :=
  if authSet then
    match newProxyStageHandler urlParse st ep with
    | Except.error e => Except.error e
    | Except.ok (chain, st') => Except.ok (Stage.auth :: chain, st')
  else Except.error "authenticated service configured but no auth handler set"

/-- Compiles one endpoint's stage chain, choosing the authenticating chain
when the endpoint requires authentication. -/
def compileEndpoint (urlParse : String → Option ParsedURL) (authSet : Bool)
    (st : BuildSt) (ep : Endpoint) : Except String (List Stage × BuildSt) :=
  if ep.authenticate then newAuthenticatingProxyStageHandler urlParse authSet st ep
  else newProxyStageHandler urlParse st ep

/-- Embeds `gateway.Route`: the (copied) endpoint plus its compiled chain. -/
structure RouteM where
  endpoint : Endpoint
  chain : List Stage
deriving DecidableEq, Repr

/-- Embeds `Dispatcher.configureRoutes`: walks the endpoint list compiling
each chain and inserting the route under the endpoint's `Name` (the `Key`
field is not consulted).  On the first compilation error the loop stops:
the routes map is not assigned (first component `none`), the partially
mutated transports state is kept, and the error is returned. -/
def configureRoutesAux (urlParse : String → Option ParsedURL) (authSet : Bool) :
    List Endpoint → List (String × RouteM) → BuildSt →
    Option (List (String × RouteM)) × BuildSt × Option String
  | [], acc, st => (some acc, st, none)
  | ep :: rest, acc, st =>
    match compileEndpoint urlParse authSet st ep with
    | Except.error e => (none, st, some e)
    | Except.ok (chain, st') =>
      configureRoutesAux urlParse authSet rest ((ep.name, ⟨ep, chain⟩) :: acc) st'

/-- Embeds the dispatcher state relevant to dispatch: the routes map is
`none` when `configureRoutes` never assigned it (a nil Go map, every lookup
missing). -/
structure DispatcherM where
  routes : Option (List (String × RouteM))
  transports : List (String × Nat)
deriving DecidableEq, Repr

/-- Embeds `DispatcherBuilder.Build`: runs `configureRoutes` on a fresh
transports map and returns the dispatcher unconditionally, discarding the
error `configureRoutes` may have produced. -/
def build (urlParse : String → Option ParsedURL) (authSet : Bool)
    (endpoints : List Endpoint) : DispatcherM :=
  let r := configureRoutesAux urlParse authSet endpoints [] ⟨[], 0⟩
  ⟨r.1, r.2.1.transports⟩

/-! ## Per-request dispatch (Dispatcher.Dispatch) -/

/-- Splits a character list on a separator, embedding `strings.Split`:
the result always has one more element than the number of separators. -/
def goSplitChars (sep : Char) : List Char → List (List Char)
  | [] => [[]]
  | c :: cs =>
    if c = sep then [] :: goSplitChars sep cs
    else
      match goSplitChars sep cs with
      | [] => [[c]]
      | p :: ps => (c :: p) :: ps

/-- Embeds `strings.Split(s, "/")` (single-character separator). -/
def goSplit (s : String) (sep : Char) : List String :=
  (goSplitChars sep s.data).map String.mk

/-- Embeds `Dispatcher.sendError`: writes the status then the body
`fmt.Fprintf(w, "%v: %v", e.Message, e.Code)`. -/
def sendError (e : HttpError) (w : Response) : Response :=
  write (e.message ++ ": " ++ toString e.code) (writeHeader e.code w)

/-- Outcome of a dispatch: a finalized response together with the stages that
executed in order, an index-out-of-range panic, or a non-terminating stage
loop (fuel exhausted). -/
inductive DispatchOutcome where
  | ok : Response → List Stage → DispatchOutcome
  | panicked : DispatchOutcome
  | hang : DispatchOutcome
deriving DecidableEq, Repr

/-- Embeds the stage loop inside `Dispatcher.Dispatch`.  Faithful to the Go
code, the advance step after a stage returns true is
`sh = matchRoute.StageHandler.Next` — the successor of the chain HEAD
(`headNext`), not of the current stage.  `fuel` bounds the number of
iterations; `hang` is reachable only when the loop would not terminate.  The
accumulated trace records each executed stage in order. -/
def dispatchLoop (ctx : Ctx Token) (req : Request) (headNext : List Stage) :
    Nat → List Stage → Response → List Stage → DispatchOutcome
  | _, [], w, tr => DispatchOutcome.ok w tr.reverse
  | 0, _ :: _, _, _ => DispatchOutcome.hang
  | fuel + 1, s :: _, w, tr =>
    match execStage ctx req s w with
    | (true, w') => dispatchLoop ctx req headNext fuel headNext w' (s :: tr)
    | (false, w') => DispatchOutcome.ok w' ((s :: tr).reverse)

/-- Embeds `Dispatcher.Dispatch`: split the path on "/", guard on
`len(pathSgmts) >= 1` (always true for a Go `strings.Split` result, so the
final 404 branch is dead code), index `pathSgmts[1]` (an out-of-range panic
when the split produced a single element), look the segment up in the routes
map and run the matched route's stage loop, or send the fixed 404. -/
def Dispatch (ctx : Ctx Token) (d : DispatcherM) (fuel : Nat) (req : Request) :
    DispatchOutcome :=
  let pathSgmts := goSplit req.path '/'
  if pathSgmts.length ≥ 1 then
    match pathSgmts.get? 1 with
    | none => DispatchOutcome.panicked
    | some key =>
      match alookup (d.routes.getD []) key with
      | some matchRoute =>
        dispatchLoop ctx req matchRoute.chain.tail fuel matchRoute.chain emptyResponse []
      | none => DispatchOutcome.ok (sendError NotFound emptyResponse) []
  else DispatchOutcome.ok (sendError NotFound emptyResponse) []

/-! ## Facts about `goSplitChars` -/

theorem goSplitChars_ne_nil (sep : Char) (l : List Char) : goSplitChars sep l ≠ [] := by
  cases l with
  | nil => simp [goSplitChars]
  | cons c cs =>
    by_cases hc : c = sep
    · simp [goSplitChars, hc]
    · simp only [goSplitChars, if_neg hc]
      cases goSplitChars sep cs <;> simp

theorem goSplitChars_length_pos (sep : Char) (l : List Char) :
    1 ≤ (goSplitChars sep l).length := by
  have h := goSplitChars_ne_nil sep l
  cases hg : goSplitChars sep l with
  | nil => exact absurd hg h
  | cons a as => simp

theorem goSplitChars_mem_length (sep : Char) (l : List Char) (h : sep ∈ l) :
    2 ≤ (goSplitChars sep l).length := by
  induction l with
  | nil => cases h
  | cons c cs ih =>
    by_cases hc : c = sep
    · have := goSplitChars_length_pos sep cs
      simp only [goSplitChars, if_pos hc, List.length_cons]
      omega
    · have hcs : sep ∈ cs := by
        cases h with
        | head => exact absurd rfl hc
        | tail _ hm => exact hm
      have h2 := ih hcs
      simp only [goSplitChars, if_neg hc]
      cases hg : goSplitChars sep cs with
      | nil => exact absurd hg (goSplitChars_ne_nil sep cs)
      | cons p ps =>
        rw [hg] at h2
        simpa using h2

theorem goSplit_mem_get (s : String) (h : '/' ∈ s.data) :
    ∃ key, (goSplit s '/')[1]? = some key := by
  have h2 : 2 ≤ (goSplit s '/').length := by
    simpa [goSplit] using goSplitChars_mem_length '/' s.data h
  cases hg : goSplit s '/' with
  | nil => rw [hg] at h2; simp at h2
  | cons a as =>
    cases as with
    | nil => rw [hg] at h2; simp at h2
    | cons b bs => exact ⟨b, by simp⟩

/-! ## Concrete fixtures used by the claim instances -/

/-- A concrete execution context: a verifier that rejects every token, and a
reverse-proxy effect that appends a marker to the response body. -/
def ctxA : Ctx Nat := ⟨fun _ => Except.error "bad token", fun _ _ _ w => write "proxied" w⟩

/-- A URL parser accepting every string, for fixtures whose URLs are fine. -/
def anyUrlParse : String → Option ParsedURL := fun s => some ⟨s⟩

/-- The spec's own worked example from its testable properties: an endpoint
named `svc2` whose route key is `service2`. -/
def svc2ep : Endpoint := ⟨"svc2", "service2", "http://localhost:8282", false, ""⟩

/-- The dispatcher built from the single endpoint `svc2ep`. -/
def d1 : DispatcherM := build anyUrlParse false [svc2ep]

/-- Claim C1: refuted as stated — `configureRoutes` indexes each route by the
endpoint's `Name`, not by its route `Key` (the `Key` field is validated by
the config package but never consulted in routing).  For the endpoint named
"svc2" with key "service2", a request whose first non-empty path segment is
the key "service2" gets the fixed 404 response, while a request whose second
split segment is the NAME "svc2" executes the endpoint's stage chain. -/
theorem routes_indexed_by_name_not_key :
    Dispatch ctxA d1 2 ⟨"/service2/x", none⟩ =
      DispatchOutcome.ok ⟨some 404, "not found: 404"⟩ [] ∧
    Dispatch ctxA d1 2 ⟨"/svc2/x", none⟩ =
      DispatchOutcome.ok ⟨none, "proxied"⟩ [Stage.proxy 0 ⟨"http://localhost:8282"⟩] := by
  decide

/-- Claim C5: refuted as stated — dispatch is not total.  `strings.Split` of
the empty path (as produced e.g. by a CONNECT request) or of the path "*"
(an OPTIONS * request) yields a single element, the guard
`len(pathSgmts) >= 1` is vacuously true, and indexing `pathSgmts[1]` panics
with index out of range; the 404 else-branch meant for the no-segment case is
unreachable. -/
theorem dispatch_empty_path_panics :
    Dispatch ctxA d1 2 ⟨"", none⟩ = DispatchOutcome.panicked ∧
    Dispatch ctxA d1 2 ⟨"*", none⟩ = DispatchOutcome.panicked := by
  decide

/-- A URL parser rejecting the malformed URL "http://[bad" (Go's `url.Parse`
fails on an unclosed bracket in the host). -/
def badUrlParse : String → Option ParsedURL :=
  fun s => if s = "http://[bad" then none else some ⟨s⟩

/-- An endpoint whose URL does not parse, so its route fails to compile. -/
def badEp : Endpoint := ⟨"svc1", "service1", "http://[bad", false, ""⟩

/-- The dispatcher `Build` returns even though `configureRoutes` failed. -/
def dBad : DispatcherM := build badUrlParse false [badEp]

/-- Claim C9, counterexample to "answers 404 to every request": the
dispatcher built from an endpoint whose URL fails to parse has no route
table assigned, yet a request with an empty path panics in `Dispatch`
instead of receiving the 404 response. -/
theorem build_bad_url_counterexample :
    dBad.routes = none ∧
    Dispatch ctxA dBad 2 ⟨"", none⟩ = DispatchOutcome.panicked ∧
    Dispatch ctxA dBad 2 ⟨"", none⟩ ≠
      DispatchOutcome.ok ⟨some 404, "not found: 404"⟩ [] := by
  decide

/-- Claim C9 (amended): when compiling any route fails,
`DispatcherBuilder.Build` discards the error returned by `configureRoutes`
and still returns a Dispatcher whose route table was never assigned, so the
built Dispatcher answers 404 (with the fixed not-found body) to every request
whose path contains at least one "/" — a request whose path has no "/" hits
the `pathSgmts[1]` panic instead. -/
theorem build_discards_configure_error {Token : Type}
    (urlParse : String → Option ParsedURL) (authSet : Bool)
    (endpoints : List Endpoint) (stF : BuildSt) (err : Option String)
    (ctx : Ctx Token) (fuel : Nat) (path : String) (authz : Option String)
    (hcfg : configureRoutesAux urlParse authSet endpoints [] ⟨[], 0⟩ = (none, stF, err))
    (hpath : '/' ∈ path.data) :
    (build urlParse authSet endpoints).routes = none ∧
    Dispatch ctx (build urlParse authSet endpoints) fuel ⟨path, authz⟩ =
      DispatchOutcome.ok ⟨some 404, "not found: 404"⟩ [] := by
  have hroutes : (build urlParse authSet endpoints).routes = none := by
    simp [build, hcfg]
  refine ⟨hroutes, ?_⟩
  obtain ⟨key, hkey⟩ := goSplit_mem_get path hpath
  have hlen : 1 ≤ (goSplit path '/').length := by
    simpa [goSplit] using goSplitChars_length_pos '/' path.data
  have h404 : sendError NotFound emptyResponse = ⟨some 404, "not found: 404"⟩ := by decide
  simp [Dispatch, hroutes, hkey, hlen, alookup, h404]

/-- Witness for C9 (amended) at the bad-URL endpoint and the request path
"/service1/x". -/
theorem build_discards_configure_error_witness :
    dBad.routes = none ∧
    Dispatch ctxA dBad 2 ⟨"/service1/x", none⟩ =
      DispatchOutcome.ok ⟨some 404, "not found: 404"⟩ [] :=
  build_discards_configure_error badUrlParse false [badEp] ⟨[], 0⟩
    (some ("failed to parse url: http://[bad" ++ ", for endpoint: svc1")) ctxA 2
    "/service1/x" none (by decide) (by decide)

/-! ## The stage-chain execution contract (claim C3) -/

/-- Modelled from the spec: the §4.4 execution contract — the chain is walked
front to back; a stage returning false halts the chain immediately; a stage
returning true passes control to exactly the next stage; reaching the
terminal stage ends the chain regardless of its return value.  Returns the
final response and the stages executed, in order. -/
def chainContractExec (ctx : Ctx Token) (req : Request) :
    List Stage → Response → Response × List Stage
  | [], w => (w, [])
  | s :: rest, w =>
    match execStage ctx req s w with
    | (true, w') =>
      let r := chainContractExec ctx req rest w'
      (r.1, s :: r.2)
    | (false, w') => (w', [s])

/-- The shape of every chain `configureRoutes` compiles: a lone proxy stage,
or an auth stage followed by the proxy stage. -/
def compiledShape (chain : List Stage) : Prop :=
  (∃ t u, chain = [Stage.proxy t u]) ∨ (∃ t u, chain = [Stage.auth, Stage.proxy t u])

theorem newProxyStageHandler_shape (urlParse : String → Option ParsedURL)
    (st : BuildSt) (ep : Endpoint) (chain : List Stage) (st' : BuildSt)
    (h : newProxyStageHandler urlParse st ep = Except.ok (chain, st')) :
    ∃ t u, chain = [Stage.proxy t u] := by
  unfold newProxyStageHandler at h
  cases hu : urlParse ep.url with
  | none => rw [hu] at h; cases h
  | some u =>
    rw [hu] at h
    cases hl : alookup st.transports (effTransName ep) with
    | none => rw [hl] at h; exact ⟨st.nextHandle, u, (by cases h; rfl)⟩
    | some t => rw [hl] at h; exact ⟨t, u, (by cases h; rfl)⟩

theorem compileEndpoint_shape (urlParse : String → Option ParsedURL) (authSet : Bool)
    (st : BuildSt) (ep : Endpoint) (chain : List Stage) (st' : BuildSt)
    (h : compileEndpoint urlParse authSet st ep = Except.ok (chain, st')) :
    compiledShape chain := by
  unfold compileEndpoint at h
  by_cases ha : ep.authenticate = true
  · rw [if_pos ha] at h
    unfold newAuthenticatingProxyStageHandler at h
    cases hs : authSet with
    | false => rw [hs] at h; cases h
    | true =>
      rw [hs] at h
      simp only [if_pos] at h
      cases hp : newProxyStageHandler urlParse st ep with
      | error e => rw [hp] at h; cases h
      | ok pr =>
        rw [hp] at h
        obtain ⟨t, u, hc⟩ := newProxyStageHandler_shape urlParse st ep pr.1 pr.2 (by rw [hp])
        cases h
        exact Or.inr ⟨t, u, by rw [hc]⟩
  · rw [if_neg ha] at h
    exact Or.inl (newProxyStageHandler_shape urlParse st ep chain st' h)

theorem configureRoutesAux_shape (urlParse : String → Option ParsedURL) (authSet : Bool) :
    ∀ (eps : List Endpoint) (acc : List (String × RouteM)) (st : BuildSt)
      (routes : List (String × RouteM)) (stF : BuildSt) (err : Option String),
      configureRoutesAux urlParse authSet eps acc st = (some routes, stF, err) →
      ∀ kr ∈ routes, kr ∈ acc ∨ compiledShape kr.2.chain
  | [], acc, st, routes, stF, err, h, kr, hm => by
    cases h
    exact Or.inl hm
  | ep :: rest, acc, st, routes, stF, err, h, kr, hm => by
    unfold configureRoutesAux at h
    cases hc : compileEndpoint urlParse authSet st ep with
    | error e => rw [hc] at h; cases h
    | ok pr =>
      rw [hc] at h
      have ih := configureRoutesAux_shape urlParse authSet rest
        ((ep.name, ⟨ep, pr.1⟩) :: acc) pr.2 routes stF err h kr hm
      cases ih with
      | inr hs => exact Or.inr hs
      | inl hmem =>
        cases hmem with
        | head =>
          exact Or.inr (compileEndpoint_shape urlParse authSet st ep pr.1 pr.2
            (by rw [hc]))
        | tail _ hmem' => exact Or.inl hmem'

/-- Claim C3: for every chain compiled by `configureRoutes` and every request
dispatched to it, the stage loop of `Dispatcher.Dispatch` (run exactly as
`Dispatch` runs it on a matched route, with any fuel covering the loop's
iterations) agrees with the §4.4 chain contract: stages execute front to
back in chain order, a stage returning false halts the chain with no later
stage executed, a stage returning true hands control to exactly the next
stage, and the terminal stage ends the chain.  The loop's idiosyncratic
advance step `sh = matchRoute.StageHandler.Next` coincides with the contract
on every compiled chain because compiled chains have at most two stages and
a terminal proxy stage that always returns false. -/
theorem dispatch_loop_matches_chain_contract {Token : Type}
    (urlParse : String → Option ParsedURL) (authSet : Bool)
    (endpoints : List Endpoint) (routes : List (String × RouteM))
    (stF : BuildSt) (err : Option String) (ctx : Ctx Token) (req : Request)
    (fuel : Nat) (k : String) (r : RouteM)
    (hcfg : configureRoutesAux urlParse authSet endpoints [] ⟨[], 0⟩ = (some routes, stF, err))
    (hmem : (k, r) ∈ routes) (hfuel : 2 ≤ fuel) :
    dispatchLoop ctx req r.chain.tail fuel r.chain emptyResponse [] =
      DispatchOutcome.ok (chainContractExec ctx req r.chain emptyResponse).1
        (chainContractExec ctx req r.chain emptyResponse).2 := by
  have hshape := configureRoutesAux_shape urlParse authSet endpoints [] ⟨[], 0⟩
    routes stF err hcfg (k, r) hmem
  obtain ⟨f, rfl⟩ : ∃ f, fuel = f + 2 := ⟨fuel - 2, by omega⟩
  cases hshape with
  | inl hmem' => cases hmem'
  | inr hs =>
    cases hs with
    | inl hp =>
      obtain ⟨t, u, hc⟩ := hp
      rw [hc]
      simp [dispatchLoop, execStage, chainContractExec]
    | inr hap =>
      obtain ⟨t, u, hc⟩ := hap
      rw [hc]
      rcases hb : execStage ctx req Stage.auth emptyResponse with ⟨b, w'⟩
      cases b
      · simp [dispatchLoop, chainContractExec, hb]
      · have hp : execStage ctx req (Stage.proxy t u) w' =
            (false, ctx.proxyEffect t u req w') := rfl
        simp [dispatchLoop, chainContractExec, hb, hp]

/-- Witness for C3 at the proxy-only chain compiled for `svc2ep`. -/
theorem dispatch_loop_matches_chain_contract_witness :
    dispatchLoop ctxA ⟨"/svc2/x", none⟩ ([] : List Stage) 2
        [Stage.proxy 0 ⟨"http://localhost:8282"⟩] emptyResponse [] =
      DispatchOutcome.ok ⟨none, "proxied"⟩ [Stage.proxy 0 ⟨"http://localhost:8282"⟩] := by
  have h := dispatch_loop_matches_chain_contract anyUrlParse false [svc2ep]
    [("svc2", ⟨svc2ep, [Stage.proxy 0 ⟨"http://localhost:8282"⟩]⟩)]
    ⟨[("svc2", 0)], 1⟩ none ctxA ⟨"/svc2/x", none⟩ 2 "svc2"
    ⟨svc2ep, [Stage.proxy 0 ⟨"http://localhost:8282"⟩]⟩ (by decide) (by decide)
    (by decide)
  simpa using h

/-! ## Authentication failure handling (claim C4) -/

/-- The response the auth stage finalizes on a fresh writer when
authentication fails carrying `he`: the carried code (when non-zero) and
message (when non-empty), otherwise 403 "forbidden". -/
def authFailureResponse : Option HttpError → Response
  | some e =>
    let w1 := if e.code ≠ 0 then writeHeader e.code emptyResponse else emptyResponse
    if e.message ≠ "" then write e.message w1 else w1
  | none => write "forbidden" (writeHeader 403 emptyResponse)

/-- Claim C4: for a request to an authenticated endpoint whose authentication
fails (the auth handler returns false with carried error `he`), the auth
stage writes the carried HTTP code and message when one was supplied —
in particular a request with no Authorization header carries the 401
"unauthorized" error — and otherwise writes 403 "forbidden"; the stage
halts the chain, the executed-stage trace is exactly the auth stage, and the
conclusion holds for EVERY proxy effect `pe`, so the backend is never
contacted. -/
theorem auth_failure_halts_chain {Token : Type}
    (jwtParse : String → Except String Token)
    (pe : Nat → ParsedURL → Request → Response → Response)
    (req : Request) (t : Nat) (u : ParsedURL) (fuel : Nat) (he : Option HttpError)
    (hfuel : 1 ≤ fuel)
    (hauth : jwtAuthHandler jwtParse req.authorization = (false, he)) :
    dispatchLoop ⟨jwtParse, pe⟩ req [Stage.proxy t u] fuel
        [Stage.auth, Stage.proxy t u] emptyResponse [] =
      DispatchOutcome.ok (authFailureResponse he) [Stage.auth] ∧
    (req.authorization = none → he = some UnAuthorized) ∧
    authFailureResponse (some UnAuthorized) = ⟨some 401, "unauthorized"⟩ ∧
    authFailureResponse none = ⟨some 403, "forbidden"⟩ := by
  obtain ⟨f, rfl⟩ : ∃ f, fuel = f + 1 := ⟨fuel - 1, by omega⟩
  refine ⟨?_, ?_, by decide, by decide⟩
  · have hexec : @execStage Token ⟨jwtParse, pe⟩ req Stage.auth emptyResponse =
        (false, authFailureResponse he) := by
      show authStageExec (jwtAuthHandler jwtParse) req.authorization emptyResponse =
        (false, authFailureResponse he)
      rw [authStageExec, hauth]
      cases he with
      | none => rfl
      | some e => rfl
    simp [dispatchLoop, hexec]
  · intro hnone
    rw [hnone] at hauth
    have hu : @jwtAuthHandler Token jwtParse none = (false, some UnAuthorized) := rfl
    rw [hu] at hauth
    injection hauth with h1 h2
    exact h2.symm

/-- Witness for C4: a request with no Authorization header against the
authenticating chain gets status 401 with body "unauthorized", with only the
auth stage executed. -/
theorem auth_failure_halts_chain_witness :
    dispatchLoop (⟨fun _ => Except.error "bad token", fun _ _ _ w => write "proxied" w⟩ :
        Ctx Nat) ⟨"/svc2/x", none⟩ [Stage.proxy 0 ⟨"http://localhost:8282"⟩] 2
        [Stage.auth, Stage.proxy 0 ⟨"http://localhost:8282"⟩] emptyResponse [] =
      DispatchOutcome.ok ⟨some 401, "unauthorized"⟩ [Stage.auth] := by
  have h := auth_failure_halts_chain
    (fun _ => (Except.error "bad token" : Except String Nat))
    (fun _ _ _ w => write "proxied" w) ⟨"/svc2/x", none⟩ 0 ⟨"http://localhost:8282"⟩ 2
    (some UnAuthorized) (by decide) (by decide)
  exact h.2.2.1 ▸ h.1

/-! ## Transport-handle sharing (claim C6) -/

/-- The transport handle a compiled chain's proxy stage routes through. -/
def routeHandle : List Stage → Option Nat
  | [] => none
  | Stage.auth :: rest => routeHandle rest
  | Stage.proxy t _ :: _ => some t

theorem alookup_none_not_mem (l : List (String × Nat)) (k : String)
    (h : alookup l k = none) : k ∉ l.map Prod.fst := by
  induction l with
  | nil => simp
  | cons p rest ih =>
    obtain ⟨pk, pv⟩ := p
    by_cases hk : pk = k
    · simp [alookup, hk] at h
    · have h' : alookup rest k = none := by simpa [alookup, hk] using h
      simp only [List.map_cons, List.mem_cons]
      rintro (he | hm)
      · exact hk he.symm
      · exact ih h' hm

theorem newProxyStageHandler_lookup (urlParse : String → Option ParsedURL)
    (st : BuildSt) (ep : Endpoint) (chain : List Stage) (st' : BuildSt)
    (h : newProxyStageHandler urlParse st ep = Except.ok (chain, st')) :
    (∀ k v, alookup st.transports k = some v → alookup st'.transports k = some v) ∧
    (∃ t, routeHandle chain = some t ∧
      alookup st'.transports (effTransName ep) = some t) ∧
    ((st.transports.map Prod.fst).Nodup → (st'.transports.map Prod.fst).Nodup) := by
  unfold newProxyStageHandler at h
  cases hu : urlParse ep.url with
  | none => rw [hu] at h; cases h
  | some u =>
    rw [hu] at h
    cases hl : alookup st.transports (effTransName ep) with
    | some t =>
      rw [hl] at h
      cases h
      exact ⟨fun k v hv => hv, ⟨t, rfl, hl⟩, fun hnd => hnd⟩
    | none =>
      rw [hl] at h
      cases h
      refine ⟨?_, ⟨st.nextHandle, rfl, ?_⟩, ?_⟩
      · intro k v hv
        have hk : effTransName ep ≠ k := fun he => by rw [he, hv] at hl; cases hl
        simpa [alookup, hk] using hv
      · simp [alookup]
      · intro hnd
        simpa [hnd] using alookup_none_not_mem st.transports (effTransName ep) hl

theorem compileEndpoint_lookup (urlParse : String → Option ParsedURL) (authSet : Bool)
    (st : BuildSt) (ep : Endpoint) (chain : List Stage) (st' : BuildSt)
    (h : compileEndpoint urlParse authSet st ep = Except.ok (chain, st')) :
    (∀ k v, alookup st.transports k = some v → alookup st'.transports k = some v) ∧
    (∃ t, routeHandle chain = some t ∧
      alookup st'.transports (effTransName ep) = some t) ∧
    ((st.transports.map Prod.fst).Nodup → (st'.transports.map Prod.fst).Nodup) := by
  unfold compileEndpoint at h
  by_cases ha : ep.authenticate = true
  · rw [if_pos ha] at h
    unfold newAuthenticatingProxyStageHandler at h
    cases hs : authSet with
    | false => rw [hs] at h; cases h
    | true =>
      rw [hs] at h
      simp only [if_pos] at h
      cases hp : newProxyStageHandler urlParse st ep with
      | error e => rw [hp] at h; cases h
      | ok pr =>
        rw [hp] at h
        cases h
        have base := newProxyStageHandler_lookup urlParse st ep pr.1 pr.2 (by rw [hp])
        exact ⟨base.1, by simpa [routeHandle] using base.2.1, base.2.2⟩
  · rw [if_neg ha] at h
    exact newProxyStageHandler_lookup urlParse st ep chain st' h

theorem configureRoutesAux_preserves_lookup (urlParse : String → Option ParsedURL)
    (authSet : Bool) :
    ∀ (eps : List Endpoint) (acc : List (String × RouteM)) (st : BuildSt),
      (∀ k v, alookup st.transports k = some v →
        alookup (configureRoutesAux urlParse authSet eps acc st).2.1.transports k = some v) ∧
      ((st.transports.map Prod.fst).Nodup →
        ((configureRoutesAux urlParse authSet eps acc st).2.1.transports.map Prod.fst).Nodup)
  | [], acc, st => by simp [configureRoutesAux]
  | ep :: rest, acc, st => by
    unfold configureRoutesAux
    cases hc : compileEndpoint urlParse authSet st ep with
    | error e => simp
    | ok pr =>
      have step := compileEndpoint_lookup urlParse authSet st ep pr.1 pr.2 (by rw [hc])
      have ih := configureRoutesAux_preserves_lookup urlParse authSet rest
        ((ep.name, ⟨ep, pr.1⟩) :: acc) pr.2
      exact ⟨fun k v hv => ih.1 k v (step.1 k v hv), fun hnd => ih.2 (step.2.2 hnd)⟩

theorem configureRoutesAux_route_handle (urlParse : String → Option ParsedURL)
    (authSet : Bool) :
    ∀ (eps : List Endpoint) (acc : List (String × RouteM)) (st : BuildSt)
      (routes : List (String × RouteM)) (stF : BuildSt) (err : Option String),
      configureRoutesAux urlParse authSet eps acc st = (some routes, stF, err) →
      ∀ kr ∈ routes, kr ∈ acc ∨ ∃ t, routeHandle kr.2.chain = some t ∧
        alookup stF.transports (effTransName kr.2.endpoint) = some t
  | [], acc, st, routes, stF, err, h, kr, hm => by
    cases h
    exact Or.inl hm
  | ep :: rest, acc, st, routes, stF, err, h, kr, hm => by
    unfold configureRoutesAux at h
    cases hc : compileEndpoint urlParse authSet st ep with
    | error e => rw [hc] at h; cases h
    | ok pr =>
      obtain ⟨chain, st'⟩ := pr
      rw [hc] at h
      replace h : configureRoutesAux urlParse authSet rest
          ((ep.name, ⟨ep, chain⟩) :: acc) st' = (some routes, stF, err) := h
      have ih := configureRoutesAux_route_handle urlParse authSet rest
        ((ep.name, ⟨ep, chain⟩) :: acc) st' routes stF err h kr hm
      cases ih with
      | inr hs => exact Or.inr hs
      | inl hmem =>
        cases hmem with
        | tail _ hmem' => exact Or.inl hmem'
        | head =>
          have step := compileEndpoint_lookup urlParse authSet st ep chain st' (by rw [hc])
          obtain ⟨t, hrt, hlk⟩ := step.2.1
          have hfin : stF = (configureRoutesAux urlParse authSet rest
              ((ep.name, ⟨ep, chain⟩) :: acc) st').2.1 := by rw [h]
          refine Or.inr ⟨t, hrt, ?_⟩
          rw [hfin]
          exact (configureRoutesAux_preserves_lookup urlParse authSet rest
            ((ep.name, ⟨ep, chain⟩) :: acc) st').1 (effTransName ep) t hlk

/-- Claim C6: for every endpoint list, route compilation registers at most
one transport handle per transport name (the final transports map has
duplicate-free keys), and every two compiled routes whose endpoints resolve
to the same effective transport name (the endpoint's own name, or its
declared `sharedTransport` name) carry the same transport handle in their
proxy stages — in particular an endpoint declaring another endpoint's name
as `sharedTransport` shares that endpoint's connection pool and breaker. -/
theorem transport_handle_shared_per_name (urlParse : String → Option ParsedURL)
    (authSet : Bool) (endpoints : List Endpoint)
    (routes : List (String × RouteM)) (stF : BuildSt) (err : Option String)
    (hcfg : configureRoutesAux urlParse authSet endpoints [] ⟨[], 0⟩ =
      (some routes, stF, err)) :
    (stF.transports.map Prod.fst).Nodup ∧
    ∀ k1 r1 k2 r2, (k1, r1) ∈ routes → (k2, r2) ∈ routes →
      effTransName r1.endpoint = effTransName r2.endpoint →
      routeHandle r1.chain = routeHandle r2.chain ∧ (routeHandle r1.chain).isSome := by
  constructor
  · have h := (configureRoutesAux_preserves_lookup urlParse authSet endpoints []
      ⟨[], 0⟩).2 (by simp)
    rw [hcfg] at h
    exact h
  · intro k1 r1 k2 r2 hm1 hm2 heq
    have h1 := configureRoutesAux_route_handle urlParse authSet endpoints [] ⟨[], 0⟩
      routes stF err hcfg (k1, r1) hm1
    have h2 := configureRoutesAux_route_handle urlParse authSet endpoints [] ⟨[], 0⟩
      routes stF err hcfg (k2, r2) hm2
    cases h1 with
    | inl hin => cases hin
    | inr hh1 =>
      cases h2 with
      | inl hin => cases hin
      | inr hh2 =>
        obtain ⟨t1, hrt1, hlk1⟩ := hh1
        obtain ⟨t2, hrt2, hlk2⟩ := hh2
        rw [heq, hlk2] at hlk1
        injection hlk1 with ht
        rw [hrt1, hrt2, ht]
        exact ⟨rfl, rfl⟩

/-- Witness for C6 at the repository's own local configuration: `service1`
declares `sharedTransport = service2`, and both compiled routes carry the
same transport handle. -/
theorem transport_handle_shared_per_name_witness :
    routeHandle [Stage.proxy 0 ⟨"http://localhost:8181"⟩] =
      routeHandle [Stage.proxy 0 ⟨"http://localhost:8282"⟩] ∧
    (routeHandle [Stage.proxy 0 ⟨"http://localhost:8181"⟩]).isSome := by
  have h := transport_handle_shared_per_name anyUrlParse false
    [⟨"service1", "service1", "http://localhost:8181", false, "service2"⟩,
     ⟨"service2", "service2", "http://localhost:8282", false, ""⟩]
    [("service2", ⟨⟨"service2", "service2", "http://localhost:8282", false, ""⟩,
        [Stage.proxy 0 ⟨"http://localhost:8282"⟩]⟩),
     ("service1", ⟨⟨"service1", "service1", "http://localhost:8181", false, "service2"⟩,
        [Stage.proxy 0 ⟨"http://localhost:8181"⟩]⟩)]
    ⟨[("service2", 0)], 1⟩ none (by decide)
  exact h.2 "service1"
    ⟨⟨"service1", "service1", "http://localhost:8181", false, "service2"⟩,
      [Stage.proxy 0 ⟨"http://localhost:8181"⟩]⟩ "service2"
    ⟨⟨"service2", "service2", "http://localhost:8282", false, ""⟩,
      [Stage.proxy 0 ⟨"http://localhost:8282"⟩]⟩ (by decide) (by decide) (by decide)

/-! ## The circuit-breaker-wrapped transport (claim C2)

`CbTransport.RoundTrip` wraps the underlying transport call in the breaker's
`Execute`.  The underlying `Transport.RoundTrip` outcome is either a backend
response or a network-level error, embedded as an `Except`. -/

/-- A backend HTTP response, identified by its status and an opaque body. -/
structure BackendResp where
  status : Nat
  bodyTag : String
deriving DecidableEq, Repr

/-- Embeds the closure `CbTransport.RoundTrip` hands to
`CircuitBreaker.Execute`: a response with status in 500..599 is replaced by
a nil response and the error "500 error for service endpoint"; every other
underlying outcome is returned as-is. -/
def cbWrapped (underlying : Except String BackendResp) : Except String BackendResp :=
  match underlying with
  | Except.ok r =>
    if 500 ≤ r.status ∧ r.status < 600 then
      Except.error "500 error for service endpoint"
    else Except.ok r
  | Except.error e => Except.error e

/-- Modelled from the spec: the Closed-state failure accounting of the
breaker (the gobreaker dependency, whose source is not part of this
repository) — "Each completed call updates a failure counter: a
network-level error or an HTTP 5xx response increments it; any other outcome
does not change it", where the breaker observes a failure exactly when the
executed closure returns a non-nil error. -/
def closedFailureStep (c : Nat) : Except String BackendResp → Nat
  | Except.error _ => c + 1
  | Except.ok _ => c

/-- Embeds `CbTransport.RoundTrip` with a breaker configured and in the
Closed state (which admits every call): the wrapped closure runs, the
breaker counts its outcome, and the nil-response case surfaces the error. -/
def cbRoundTripClosed (c : Nat) (underlying : Except String BackendResp) :
    Except String BackendResp × Nat :=
  (cbWrapped underlying, closedFailureStep c (cbWrapped underlying))

/-- Claim C2, counterexample to "a 5xx response is surfaced to the client as
the backend's actual response": with a breaker configured, a backend 500
response is converted by `RoundTrip` into a nil response plus the error
"500 error for service endpoint" — the backend's response is discarded. -/
theorem cb_5xx_response_not_surfaced :
    (cbRoundTripClosed 0 (Except.ok ⟨500, "backend-body"⟩)).1 =
      Except.error "500 error for service endpoint" ∧
    (cbRoundTripClosed 0 (Except.ok ⟨500, "backend-body"⟩)).1 ≠
      Except.ok ⟨500, "backend-body"⟩ := by
  refine ⟨rfl, fun hcontra => ?_⟩
  simp [cbRoundTripClosed, cbWrapped] at hcontra

/-- Claim C2 (amended): in the Closed state, a completed call ending in a
network-level error or a response with status in 500..599 increments the
failure counter and any other outcome leaves it unchanged; a response the
breaker admits whose status is outside 500..599 is returned to the client
exactly as the backend produced it, but a 5xx response is replaced by the
error "500 error for service endpoint" (surfaced as a proxy error, not as
the backend's response). -/
theorem cb_failure_count_and_response (c : Nat)
    (underlying : Except String BackendResp) :
    ((cbRoundTripClosed c underlying).2 = c + 1 ↔
      ((∃ e, underlying = Except.error e) ∨
        ∃ r, underlying = Except.ok r ∧ 500 ≤ r.status ∧ r.status < 600)) ∧
    ((cbRoundTripClosed c underlying).2 = c ∨
      (cbRoundTripClosed c underlying).2 = c + 1) ∧
    (∀ r, underlying = Except.ok r → ¬(500 ≤ r.status ∧ r.status < 600) →
      (cbRoundTripClosed c underlying).1 = Except.ok r) ∧
    (∀ r, underlying = Except.ok r → 500 ≤ r.status → r.status < 600 →
      (cbRoundTripClosed c underlying).1 =
        Except.error "500 error for service endpoint") := by
  refine ⟨?_, ?_, ?_, ?_⟩
  · cases underlying with
    | error e => simp [cbRoundTripClosed, cbWrapped, closedFailureStep]
    | ok r =>
      by_cases h5 : 500 ≤ r.status ∧ r.status < 600
      · simp [cbRoundTripClosed, cbWrapped, closedFailureStep, h5]
      · simp [cbRoundTripClosed, cbWrapped, closedFailureStep, h5]
  · cases underlying with
    | error e => simp [cbRoundTripClosed, cbWrapped, closedFailureStep]
    | ok r =>
      by_cases h5 : 500 ≤ r.status ∧ r.status < 600
      · simp [cbRoundTripClosed, cbWrapped, closedFailureStep, h5]
      · simp [cbRoundTripClosed, cbWrapped, closedFailureStep, h5]
  · intro r hr h5
    rw [hr]
    simp [cbRoundTripClosed, cbWrapped, h5]
  · intro r hr h5a h5b
    rw [hr]
    simp [cbRoundTripClosed, cbWrapped, h5a, h5b]

/-- Witness for C2 (amended): a backend 200 response passes through
unmodified with the counter unchanged. -/
theorem cb_failure_count_and_response_witness :
    (cbRoundTripClosed 0 (Except.ok ⟨200, "okbody"⟩)).1 =
      Except.ok ⟨200, "okbody"⟩ :=
  (cb_failure_count_and_response 0 (Except.ok ⟨200, "okbody"⟩)).2.2.1
    ⟨200, "okbody"⟩ rfl (by decide)

/-- Claim C7: for every credential that splits into two space-separated parts
whose first part lowercased is not "bearer", `Authenticate` returns
`Success = false` together with a non-nil error whose message is
"not a bearer token".  The theorem holds for every verifier `jwtParse`, so the
result never depends on (and hence never attempts) token verification. -/
theorem authenticate_rejects_non_bearer {Token : Type}
    (jwtParse : String → Except String Token) (creds a b : String)
    (hsplit : splitN2 creds = [a, b]) (hlower : toLowerCodes a ≠ toLowerCodes "bearer") :
    JWTAuthenticate jwtParse creds = (⟨false, none⟩, some "not a bearer token") := by
  simp [JWTAuthenticate, splitToken, hsplit, hlower]

/-- Witness for C7 at the credential "Basic xyz" (any verifier). -/
theorem authenticate_rejects_non_bearer_witness :
    JWTAuthenticate (fun s => Except.ok s) "Basic xyz" =
      (⟨false, none⟩, some "not a bearer token") :=
  authenticate_rejects_non_bearer (fun s => Except.ok s) "Basic xyz" "Basic" "xyz"
    (by decide) (by decide)

/-- Claim C10: a credential containing no space is returned unchanged by
`splitToken` with no error, so `Authenticate` hands exactly that string to the
JWT verifier; when the verifier accepts it, authentication succeeds with the
decoded token as artifact — a bare token without any "Bearer " scheme prefix
is not rejected as a non-bearer credential. -/
theorem bare_token_authenticates {Token : Type}
    (jwtParse : String → Except String Token) (creds : String)
    (hns : ' ' ∉ creds.data) :
    splitToken creds = Except.ok creds ∧
      ∀ tok : Token, jwtParse creds = Except.ok tok →
        JWTAuthenticate jwtParse creds = (⟨true, some tok⟩, none) := by
  have hsp : splitToken creds = Except.ok creds := by
    simp [splitToken, splitN2_no_space creds hns]
  refine ⟨hsp, fun tok hok => ?_⟩
  simp [JWTAuthenticate, hsp, hok]

/-- Witness for C10 at the bare credential "abc.def.ghi" with a verifier that
accepts it. -/
theorem bare_token_authenticates_witness :
    splitToken "abc.def.ghi" = Except.ok "abc.def.ghi" ∧
      JWTAuthenticate (fun s => Except.ok s) "abc.def.ghi" =
        (⟨true, some "abc.def.ghi"⟩, none) := by
  have h := bare_token_authenticates (fun s => Except.ok s) "abc.def.ghi" (by decide)
  exact ⟨h.1, h.2 "abc.def.ghi" rfl⟩

end Gogw
